import Mathlib

/-!
Shallow embedding of the OpenXR instance-extension wrapper (src/dllmain.cpp)
and verification of its specification.

The wrapper sits between the OpenXR loader and a chained runtime.  It
intercepts `xrNegotiateLoaderRuntimeInterface`, substitutes its own
`xrGetInstanceProcAddr`, and through it substitutes its own
`xrEnumerateInstanceExtensionProperties`, which filters a configured list of
extension names out of the chained runtime's enumeration result.

Modelling conventions:
- machine integers carrying XrResult values are `Int` (XR_SUCCEEDED is `0 ≤ r`);
  counts are `Nat`;
- an out-parameter is modelled as a returned value: the value the pointed-to
  location holds after the call;
- a nullable pointer argument whose pointee is a buffer is `Option (List _)`:
  `none` is a null pointer, `some l` is a buffer currently holding `l`;
- a chained entry point is a pure function from its arguments (including the
  contents of any buffer passed in) to its result code and the new contents of
  the out-locations;
- calling a null function pointer is undefined behaviour, modelled as the
  `none` outcome of an `Option` result.
-/

/-! ## XrResult codes and helpers (from openxr.h) -/

def XR_SUCCESS : Int := 0

def XR_ERROR_SIZE_INSUFFICIENT : Int := -11

def XR_ERROR_FILE_ACCESS_ERROR : Int := -32

/-- `XR_SUCCEEDED(result)` is `((result) >= 0)`. -/
def xrSucceeded (r : Int) : Bool := decide (0 ≤ r)

/-- The value of the `XR_TYPE_EXTENSION_PROPERTIES` structure-type tag. -/
def XR_TYPE_EXTENSION_PROPERTIES : Nat := 2

/-! ## Data model -/

/-- One extension record as enumerated by the runtime: a self-describing
structure-type tag, the extension name and its version. -/
structure XrExtensionProperties where
  type : Nat
  extensionName : String
  extensionVersion : Nat
deriving DecidableEq

/-- The scratch records are value-initialized with `{XR_TYPE_EXTENSION_PROPERTIES}`:
type tag set, every other field zeroed. -/
def blankExtensionProperties : XrExtensionProperties :=
  { type := XR_TYPE_EXTENSION_PROPERTIES, extensionName := "", extensionVersion := 0 }

/-- The chained `xrEnumerateInstanceExtensionProperties`: arguments are the
`layerName`, the `propertyCapacityInput` and the contents of the caller's
`properties` buffer (`none` for a null pointer); it returns the result code,
the value written through `propertyCountOutput` and the contents of the
`properties` buffer after the call. -/
def ChainedEnum :=
  Option String → Nat → Option (List XrExtensionProperties) →
    Int × Nat × Option (List XrExtensionProperties)

/-- What the shim's own `memcpy` into the caller's buffer does: the first
`written.length` records of the destination are replaced, anything beyond is
left as it was (a destination shorter than `written` is overrun, reflected by
a result longer than `old`). -/
def writeBuffer (old written : List XrExtensionProperties) :
    List XrExtensionProperties :=
  written ++ old.drop written.length

/-- One iteration of the masking loop: `std::find_if` locates the first record
whose `extensionName` equals `extensionToMask`, and `erase` removes it; when
there is no such record the array is unchanged. -/
def maskOneExtension (extensionToMask : String) :
    List XrExtensionProperties → List XrExtensionProperties
  | [] => []
  | p :: rest =>
    if p.extensionName = extensionToMask then rest
    else p :: maskOneExtension extensionToMask rest

/-- The whole masking loop over `extensionsToMask`, in configuration order. -/
def maskExtensions (extensionsToMask : List String)
    (propertiesArray : List XrExtensionProperties) : List XrExtensionProperties :=
  extensionsToMask.foldl (fun acc e => maskOneExtension e acc) propertiesArray

/-- The three out-locations of the enumeration entry point after the call. -/
structure EnumOutput where
  result : Int
  propertyCountOutput : Nat
  properties : Option (List XrExtensionProperties)
deriving DecidableEq

/-- The wrapper's own `xrEnumerateInstanceExtensionProperties`
(src/dllmain.cpp lines 57-104).  `next` is the chained implementation;
`extensionsToMask` the configured suppressed set. -/
def xrEnumerateInstanceExtensionProperties (next : ChainedEnum)
    (extensionsToMask : List String) (layerName : Option String)
    (propertyCapacityInput : Nat)
    (properties : Option (List XrExtensionProperties)) : EnumOutput :=
  match layerName with
  | none =>
    -- first call: get the real number of extensions
    match next none 0 none with
    | (r1, cnt1, _) =>
      if xrSucceeded r1 then
        -- query the real list of extensions into a scratch vector
        let scratch := List.replicate cnt1 blankExtensionProperties
        match next none cnt1 (some scratch) with
        | (r2, cnt2, buf2) =>
          if xrSucceeded r2 then
            let propertiesArray := maskExtensions extensionsToMask (buf2.getD scratch)
            { result :=
                if propertyCapacityInput ≠ 0 ∧
                    propertyCapacityInput < propertiesArray.length then
                  XR_ERROR_SIZE_INSUFFICIENT
                else r2
              propertyCountOutput := propertiesArray.length
              properties := properties.map (fun old => writeBuffer old propertiesArray) }
          else
            { result := r2, propertyCountOutput := cnt2, properties := properties }
      else
        { result := r1, propertyCountOutput := cnt1, properties := properties }
  | some l =>
    match next (some l) propertyCapacityInput properties with
    | (r, cnt, buf) =>
      { result := r, propertyCountOutput := cnt, properties := buf }

/-- The stable set-difference by name that the specification describes:
every record whose name equals any entry of the suppressed set is removed,
the rest keep their relative order.  (Spec-side definition, for comparison
with `maskExtensions`.) -/
def specSetDifferenceByName (mask : List String)
    (l : List XrExtensionProperties) : List XrExtensionProperties :=
  l.filter (fun p => !(mask.contains p.extensionName))

/-- Number of records in `l` whose name is `s`. -/
def countName (s : String) : List XrExtensionProperties → Nat
  | [] => 0
  | p :: rest => (if p.extensionName = s then 1 else 0) + countName s rest

/-- An honest chained runtime advertising the fixed list `ext`, implementing
the two-call convention; used to build concrete executions. -/
def honestNext (ext : List XrExtensionProperties) : ChainedEnum :=
  fun _ capacityInput buf =>
    if capacityInput = 0 then (XR_SUCCESS, ext.length, buf)
    else if capacityInput < ext.length then
      (XR_ERROR_SIZE_INSUFFICIENT, ext.length, buf)
    else (XR_SUCCESS, ext.length, buf.map (fun old => writeBuffer old ext))

def recA : XrExtensionProperties :=
  { type := 2, extensionName := "XR_EXT_alpha", extensionVersion := 1 }

def recB : XrExtensionProperties :=
  { type := 2, extensionName := "XR_EXT_beta", extensionVersion := 1 }

def recB2 : XrExtensionProperties :=
  { type := 2, extensionName := "XR_EXT_beta", extensionVersion := 2 }

def recC : XrExtensionProperties :=
  { type := 2, extensionName := "XR_EXT_gamma", extensionVersion := 1 }

/-! ## Function pointers, negotiation and resolver interception -/

/-- A function-pointer value as stored in slots and response fields.  Pointers
into the chained runtime are opaque (`chainedPtr`); the shim's own two
functions are distinguished values. -/
inductive FnPtr where
  | chainedPtr : Nat → FnPtr
  | shim_xrGetInstanceProcAddr : FnPtr
  | shim_xrEnumerateInstanceExtensionProperties : FnPtr
deriving DecidableEq

/-- Opaque loader-info descriptor, passed through untouched. -/
abbrev XrNegotiateLoaderInfo := Nat

/-- Opaque instance handle. -/
abbrev XrInstance := Nat

/-- The mutable negotiation request/response record.  The shim reads and
writes only `getInstanceProcAddr`; the version fields stand for the rest of
the record. -/
structure XrNegotiateRuntimeRequest where
  runtimeInterfaceVersion : Nat
  runtimeApiVersion : Nat
  getInstanceProcAddr : Option FnPtr
deriving DecidableEq

/-- The chained `xrNegotiateLoaderRuntimeInterface`: from the loader info and
the current request record to the result code and the record as the chained
runtime leaves it. -/
def NegotiateFn :=
  XrNegotiateLoaderInfo → XrNegotiateRuntimeRequest →
    Int × XrNegotiateRuntimeRequest

/-- The chained `xrGetInstanceProcAddr`: from the instance, the requested
name and the current contents of the `function` out-slot to the result code
and the slot contents after the call. -/
def ResolverFn := XrInstance → String → Option FnPtr → Int × Option FnPtr

/-- Log events, standing for the formatted lines written by `Log`. -/
inductive LogEvent where
  | maskingExtension (value : String)
  | unrecognizedOption (lineNumber : Nat) (name : String)
  | improperlyFormatted (lineNumber : Nat)
  | failedToOpenConfigFile
  | loadingRuntime (path : String)
  | failedToLoadRuntime (path : String)
deriving DecidableEq

/-- The process-wide state written by `initializeWrapper`. -/
structure WrapperState where
  chainedRuntimeModule : Option Nat
  next_xrNegotiateLoaderRuntimeInterface : Option NegotiateFn
  extensionsToMask : List String
  log : List LogEvent

/-- The wrapper's exported `xrNegotiateLoaderRuntimeInterface`
(src/dllmain.cpp lines 200-218).  `next_gipa` is the value of the global
`next_xrGetInstanceProcAddr` before the call; the result triple is the
returned code, the request record after the call, and the global's new
value.  The outer `none` is the undefined behaviour of calling a null
`next_xrNegotiateLoaderRuntimeInterface`. -/
def xrNegotiateLoaderRuntimeInterface (st : WrapperState)
    (next_gipa : Option FnPtr) (loaderInfo : XrNegotiateLoaderInfo)
    (runtimeRequest : XrNegotiateRuntimeRequest) :
    Option (Int × XrNegotiateRuntimeRequest × Option FnPtr) :=
  match st.chainedRuntimeModule with
  | none => some (XR_ERROR_FILE_ACCESS_ERROR, runtimeRequest, next_gipa)
  | some _ =>
    match st.next_xrNegotiateLoaderRuntimeInterface with
    | none => none
    | some f =>
      match f loaderInfo runtimeRequest with
      | (result, req') =>
        if xrSucceeded result then
          some (result,
            { req' with getInstanceProcAddr := some FnPtr.shim_xrGetInstanceProcAddr },
            req'.getInstanceProcAddr)
        else
          some (result, req', next_gipa)

/-- The wrapper's `xrGetInstanceProcAddr` (src/dllmain.cpp lines 107-124).
`next_gipa` is the chained resolver; `next_enum` the current value of the
global `next_xrEnumerateInstanceExtensionProperties`.  Returns the result
code, the `function` slot after the call, and the global's new value. -/
def xrGetInstanceProcAddr (next_gipa : ResolverFn) (next_enum : Option FnPtr)
    (inst : XrInstance) (name : String) (function : Option FnPtr) :
    Int × Option FnPtr × Option FnPtr :=
  match next_gipa inst name function with
  | (result, fslot) =>
    if xrSucceeded result then
      if name = "xrEnumerateInstanceExtensionProperties" then
        (XR_SUCCESS, some FnPtr.shim_xrEnumerateInstanceExtensionProperties, fslot)
      else (result, fslot, next_enum)
    else (result, fslot, next_enum)

/-! ## Configuration loading and wrapper initialization -/

/-- Configuration-parsing state: the resolved runtime path, the mask list and
the log so far. -/
structure ConfigState where
  openXrRuntime : Option String
  extensionsToMask : List String
  log : List LogEvent
deriving DecidableEq

def initialConfigState : ConfigState :=
  { openXrRuntime := none, extensionsToMask := [], log := [] }

/-- `line.find('=')` followed by `substr(0, offset)` and `substr(offset + 1)`:
the characters before the first `=` and the characters after it, or `none`
when the line has no `=` (`npos`). -/
def splitKeyValueAux : List Char → Option (List Char × List Char)
  | [] => none
  | c :: rest =>
    if c = '=' then some ([], rest)
    else
      match splitKeyValueAux rest with
      | none => none
      | some (n, v) => some (c :: n, v)

/-- The key/value split of one configuration line. -/
def splitKeyValue (line : String) : Option (String × String) :=
  match splitKeyValueAux line.data with
  | none => none
  | some (n, v) => some (String.mk n, String.mk v)

/-- One iteration of the configuration-parsing loop (src/dllmain.cpp lines
156-175).  Path joining is modelled as concatenation with a `/` separator. -/
def processConfigLine (dllHome : String) (st : ConfigState)
    (lineNumber : Nat) (line : String) : ConfigState :=
  match splitKeyValue line with
  | none => { st with log := st.log ++ [LogEvent.improperlyFormatted lineNumber] }
  | some (name, value) =>
    if name = "runtime" then
      { st with openXrRuntime := some (dllHome ++ "/" ++ value ++ ".dll") }
    else if name = "maskExtension" then
      { st with extensionsToMask := st.extensionsToMask ++ [value],
                log := st.log ++ [LogEvent.maskingExtension value] }
    else
      { st with log := st.log ++ [LogEvent.unrecognizedOption lineNumber name] }

/-- The configuration-parsing loop from a given state and line counter: the
counter is incremented before each line is processed. -/
def parseConfigFrom (dllHome : String) (st : ConfigState) (lineNumber : Nat) :
    List String → ConfigState
  | [] => st
  | line :: rest =>
    parseConfigFrom dllHome (processConfigLine dllHome st (lineNumber + 1) line)
      (lineNumber + 1) rest

/-- Parsing a whole configuration file presented as its list of lines. -/
def parseConfigLines (dllHome : String) (lines : List String) : ConfigState :=
  parseConfigFrom dllHome initialConfigState 0 lines

/-- The host system's module-loading primitives: `LoadLibraryW` and
`GetProcAddress` for the one symbol the wrapper resolves. -/
structure SystemEnv where
  loadLibrary : String → Option Nat
  getProcAddress : Nat → String → Option NegotiateFn

/-- `initializeWrapper` (src/dllmain.cpp lines 126-194): parse the
configuration (`configLines = none` is a missing file) and, when a runtime
was named, load it and resolve its negotiation entry point. -/
def initializeWrapper (env : SystemEnv) (dllHome : String)
    (configLines : Option (List String)) : WrapperState :=
  let cfg :=
    match configLines with
    | some lines => parseConfigLines dllHome lines
    | none => { initialConfigState with log := [LogEvent.failedToOpenConfigFile] }
  match cfg.openXrRuntime with
  | none =>
    { chainedRuntimeModule := none
      next_xrNegotiateLoaderRuntimeInterface := none
      extensionsToMask := cfg.extensionsToMask
      log := cfg.log }
  | some path =>
    match env.loadLibrary path with
    | some m =>
      { chainedRuntimeModule := some m
        next_xrNegotiateLoaderRuntimeInterface :=
          env.getProcAddress m "xrNegotiateLoaderRuntimeInterface"
        extensionsToMask := cfg.extensionsToMask
        log := cfg.log ++ [LogEvent.loadingRuntime path] }
    | none =>
      { chainedRuntimeModule := none
        next_xrNegotiateLoaderRuntimeInterface := none
        extensionsToMask := cfg.extensionsToMask
        log := cfg.log ++ [LogEvent.loadingRuntime path,
                           LogEvent.failedToLoadRuntime path] }

/-- Per-line characterization of a recognized `maskExtension` line: the value
it appends to the suppressed set. -/
def maskExtensionValue (line : String) : Option String :=
  match splitKeyValue line with
  | none => none
  | some (name, value) => if name = "maskExtension" then some value else none

/-- Per-line characterization of the log events a line produces. -/
def lineLogEvents (lineNumber : Nat) (line : String) : List LogEvent :=
  match splitKeyValue line with
  | none => [LogEvent.improperlyFormatted lineNumber]
  | some (name, value) =>
    if name = "runtime" then []
    else if name = "maskExtension" then [LogEvent.maskingExtension value]
    else [LogEvent.unrecognizedOption lineNumber name]

/-- The log events of a whole file, lines numbered from `lineNumber + 1`. -/
def configLogEvents : Nat → List String → List LogEvent
  | _, [] => []
  | n, line :: rest => lineLogEvents (n + 1) line ++ configLogEvents (n + 1) rest

/-! ## Concrete fixtures for witnesses and counterexamples -/

/-- A host environment whose module loads but does not export the negotiation
symbol. -/
def envSymbolMissing : SystemEnv :=
  { loadLibrary := fun _ => some 1, getProcAddress := fun _ _ => none }

/-- A chained negotiation function that succeeds and writes the chained
resolver pointer 7 into the response. -/
def negotiateOk : NegotiateFn :=
  fun _ req =>
    (XR_SUCCESS, { req with runtimeInterfaceVersion := 1,
                            getInstanceProcAddr := some (FnPtr.chainedPtr 7) })

/-- A chained negotiation function that fails with a runtime failure and
scribbles on the request record. -/
def negotiateFail : NegotiateFn :=
  fun _ req => (-2, { req with runtimeApiVersion := 99 })

/-- A loaded wrapper state whose chained negotiation is `negotiateOk`. -/
def stLoadedOk : WrapperState :=
  { chainedRuntimeModule := some 1
    next_xrNegotiateLoaderRuntimeInterface := some negotiateOk
    extensionsToMask := []
    log := [] }

/-- A loaded wrapper state whose chained negotiation is `negotiateFail`. -/
def stLoadedFail : WrapperState :=
  { chainedRuntimeModule := some 1
    next_xrNegotiateLoaderRuntimeInterface := some negotiateFail
    extensionsToMask := []
    log := [] }

/-- A sample request record as the loader might pass it in. -/
def reqSample : XrNegotiateRuntimeRequest :=
  { runtimeInterfaceVersion := 0, runtimeApiVersion := 0,
    getInstanceProcAddr := none }

/-- A chained resolver that succeeds on every name, writing a pointer derived
from the name's length into the slot. -/
def resolverOk : ResolverFn :=
  fun _ name _ => (XR_SUCCESS, some (FnPtr.chainedPtr name.length))

/-- A chained resolver that fails on every name and leaves the slot alone. -/
def resolverFail : ResolverFn := fun _ _ slot => (-7, slot)

/-! ## Lemmas about the masking loop -/

theorem maskOneExtension_of_not_mem (e : String)
    (l : List XrExtensionProperties) (h : ∀ p ∈ l, p.extensionName ≠ e) :
    maskOneExtension e l = l := by
  induction l with
  | nil => rfl
  | cons p rest ih =>
    simp only [maskOneExtension]
    rw [if_neg (h p (List.mem_cons_self p rest))]
    rw [ih (fun q hq => h q (List.mem_cons_of_mem p hq))]

theorem maskOneExtension_append (e : String) (l1 l2 : List XrExtensionProperties)
    (r : XrExtensionProperties) (h : ∀ p ∈ l1, p.extensionName ≠ e)
    (hr : r.extensionName = e) :
    maskOneExtension e (l1 ++ r :: l2) = l1 ++ l2 := by
  induction l1 with
  | nil => simp [maskOneExtension, hr]
  | cons p rest ih =>
    simp only [List.cons_append, maskOneExtension]
    rw [if_neg (h p (List.mem_cons_self p rest))]
    exact congrArg (fun t => p :: t) (ih (fun q hq => h q (List.mem_cons_of_mem p hq)))

theorem maskOneExtension_sublist (e : String) (l : List XrExtensionProperties) :
    List.Sublist (maskOneExtension e l) l := by
  induction l with
  | nil => exact List.Sublist.refl []
  | cons p rest ih =>
    simp only [maskOneExtension]
    split
    · exact List.Sublist.cons p (List.Sublist.refl rest)
    · exact List.Sublist.cons₂ p ih

theorem length_maskOneExtension_le (e : String) (l : List XrExtensionProperties) :
    (maskOneExtension e l).length ≤ l.length :=
  (maskOneExtension_sublist e l).length_le

theorem length_maskExtensions_le (mask : List String)
    (l : List XrExtensionProperties) :
    (maskExtensions mask l).length ≤ l.length := by
  induction mask generalizing l with
  | nil => simp [maskExtensions]
  | cons e rest ih =>
    calc (maskExtensions (e :: rest) l).length
        = (maskExtensions rest (maskOneExtension e l)).length := rfl
      _ ≤ (maskOneExtension e l).length := ih _
      _ ≤ l.length := length_maskOneExtension_le e l

theorem countName_maskOneExtension_ne (e s : String)
    (l : List XrExtensionProperties) (h : e ≠ s) :
    countName s (maskOneExtension e l) = countName s l := by
  induction l with
  | nil => rfl
  | cons p rest ih =>
    simp only [maskOneExtension]
    split
    · rename_i hp
      have hps : p.extensionName ≠ s := by rw [hp]; exact h
      simp [countName, if_neg hps]
    · simp only [countName, ih]

theorem countName_maskOneExtension_self (s : String)
    (l : List XrExtensionProperties) :
    countName s (maskOneExtension s l) = countName s l - 1 := by
  induction l with
  | nil => rfl
  | cons p rest ih =>
    simp only [maskOneExtension]
    split
    · rename_i hp
      simp only [countName, if_pos hp]
      omega
    · rename_i hp
      simp only [countName, if_neg hp, ih]
      omega

theorem countName_maskExtensions (mask : List String)
    (l : List XrExtensionProperties) (s : String) :
    countName s (maskExtensions mask l) = countName s l - mask.count s := by
  induction mask generalizing l with
  | nil => simp [maskExtensions]
  | cons e rest ih =>
    have step : maskExtensions (e :: rest) l
        = maskExtensions rest (maskOneExtension e l) := rfl
    rw [step, ih]
    by_cases he : e = s
    · subst he
      rw [countName_maskOneExtension_self]
      have : (e :: rest).count e = rest.count e + 1 := by
        simp [List.count_cons]
      rw [this]
      omega
    · rw [countName_maskOneExtension_ne e s l he]
      have : (e :: rest).count s = rest.count s := by
        simp [List.count_cons, Ne.symm he]
      rw [this]

theorem maskOneExtension_eq_filter_of_nodup (e : String)
    (l : List XrExtensionProperties)
    (h : (l.map XrExtensionProperties.extensionName).Nodup) :
    maskOneExtension e l = l.filter (fun p => !(p.extensionName == e)) := by
  induction l with
  | nil => rfl
  | cons p rest ih =>
    simp only [List.map_cons, List.nodup_cons] at h
    simp only [maskOneExtension]
    split
    · rename_i hp
      have hrest : rest.filter (fun p => !(p.extensionName == e)) = rest := by
        apply List.filter_eq_self.2
        intro q hq
        have : q.extensionName ≠ p.extensionName := by
          intro hc
          exact h.1 (hc ▸ List.mem_map_of_mem XrExtensionProperties.extensionName hq)
        simp [hp ▸ this]
      simp [List.filter_cons, hp, hrest]
    · rename_i hp
      simp [List.filter_cons, hp, ih h.2]

theorem nodupNames_maskOneExtension (e : String)
    (l : List XrExtensionProperties)
    (h : (l.map XrExtensionProperties.extensionName).Nodup) :
    ((maskOneExtension e l).map XrExtensionProperties.extensionName).Nodup :=
  h.sublist ((maskOneExtension_sublist e l).map XrExtensionProperties.extensionName)

theorem maskExtensions_eq_filter_of_nodup (mask : List String)
    (l : List XrExtensionProperties)
    (h : (l.map XrExtensionProperties.extensionName).Nodup) :
    maskExtensions mask l = specSetDifferenceByName mask l := by
  induction mask generalizing l with
  | nil => simp [maskExtensions, specSetDifferenceByName]
  | cons e rest ih =>
    have step : maskExtensions (e :: rest) l
        = maskExtensions rest (maskOneExtension e l) := rfl
    rw [step, ih (maskOneExtension e l) (nodupNames_maskOneExtension e l h),
      maskOneExtension_eq_filter_of_nodup e l h]
    simp only [specSetDifferenceByName, List.filter_filter]
    apply List.filter_congr
    intro p _
    by_cases hpe : p.extensionName = e <;>
      by_cases hpr : p.extensionName ∈ rest <;>
        simp [List.contains_cons, hpe, hpr]

/-! ## Lemmas about configuration parsing -/

theorem processConfigLine_extensionsToMask (d : String) (st : ConfigState)
    (n : Nat) (line : String) :
    (processConfigLine d st n line).extensionsToMask
      = st.extensionsToMask ++ (maskExtensionValue line).toList := by
  rcases h : splitKeyValue line with _ | ⟨name, value⟩
  · simp [processConfigLine, maskExtensionValue, h]
  · by_cases h1 : name = "runtime"
    · simp [processConfigLine, maskExtensionValue, h, h1]
    · by_cases h2 : name = "maskExtension"
      · simp [processConfigLine, maskExtensionValue, h, h1, h2]
      · simp [processConfigLine, maskExtensionValue, h, h1, h2]

theorem processConfigLine_log (d : String) (st : ConfigState)
    (n : Nat) (line : String) :
    (processConfigLine d st n line).log = st.log ++ lineLogEvents n line := by
  rcases h : splitKeyValue line with _ | ⟨name, value⟩
  · simp [processConfigLine, lineLogEvents, h]
  · by_cases h1 : name = "runtime"
    · simp [processConfigLine, lineLogEvents, h, h1]
    · by_cases h2 : name = "maskExtension"
      · simp [processConfigLine, lineLogEvents, h, h1, h2]
      · simp [processConfigLine, lineLogEvents, h, h1, h2]

theorem parseConfigFrom_extensionsToMask (d : String) (st : ConfigState)
    (n : Nat) (lines : List String) :
    (parseConfigFrom d st n lines).extensionsToMask
      = st.extensionsToMask ++ lines.filterMap maskExtensionValue := by
  induction lines generalizing st n with
  | nil => simp [parseConfigFrom]
  | cons line rest ih =>
    simp only [parseConfigFrom]
    rw [ih, processConfigLine_extensionsToMask]
    rcases hv : maskExtensionValue line with _ | v <;>
      simp [List.filterMap_cons, hv]

theorem parseConfigFrom_log (d : String) (st : ConfigState)
    (n : Nat) (lines : List String) :
    (parseConfigFrom d st n lines).log = st.log ++ configLogEvents n lines := by
  induction lines generalizing st n with
  | nil => simp [parseConfigFrom, configLogEvents]
  | cons line rest ih =>
    simp only [parseConfigFrom, configLogEvents]
    rw [ih, processConfigLine_log, List.append_assoc]

/-! ## Evaluation of the unqualified enumeration path -/

theorem enum_unqualified_eval (next : ChainedEnum) (mask : List String)
    (cap : Nat) (props : Option (List XrExtensionProperties))
    (r1 : Int) (cnt1 : Nat) (b1 : Option (List XrExtensionProperties))
    (r2 : Int) (cnt2 : Nat) (arr : List XrExtensionProperties)
    (h1 : next none 0 none = (r1, cnt1, b1))
    (hs1 : xrSucceeded r1 = true)
    (h2 : next none cnt1 (some (List.replicate cnt1 blankExtensionProperties))
            = (r2, cnt2, some arr))
    (hs2 : xrSucceeded r2 = true) :
    xrEnumerateInstanceExtensionProperties next mask none cap props =
      { result :=
          if cap ≠ 0 ∧ cap < (maskExtensions mask arr).length then
            XR_ERROR_SIZE_INSUFFICIENT
          else r2
        propertyCountOutput := (maskExtensions mask arr).length
        properties := props.map (fun old => writeBuffer old (maskExtensions mask arr)) } := by
  unfold xrEnumerateInstanceExtensionProperties
  rw [h1]
  simp only [hs1, if_true]
  rw [h2]
  simp only [hs2, if_true, Option.getD_some]

/-! ## Claim theorems -/

/-- C10: in the unqualified path, each entry of the suppressed list removes at
most the single earliest record still present whose name equals it; a name
occurring `k` times in the suppressed list and `m` times in the chained list
loses exactly `min k m` records, and the filtered length never exceeds the
chained length. -/
theorem mask_min_semantics (mask : List String)
    (l : List XrExtensionProperties) (s : String) :
    (∀ (e : String) (l1 l2 : List XrExtensionProperties)
        (r : XrExtensionProperties), r.extensionName = e →
        (∀ p ∈ l1, p.extensionName ≠ e) →
        maskOneExtension e (l1 ++ r :: l2) = l1 ++ l2)
    ∧ (∀ e : String, (∀ p ∈ l, p.extensionName ≠ e) → maskOneExtension e l = l)
    ∧ countName s (maskExtensions mask l)
        = countName s l - min (mask.count s) (countName s l)
    ∧ (maskExtensions mask l).length ≤ l.length := by
  refine ⟨?_, ?_, ?_, length_maskExtensions_le mask l⟩
  · intro e l1 l2 r hr h
    exact maskOneExtension_append e l1 l2 r h hr
  · intro e h
    exact maskOneExtension_of_not_mem e l h
  · rw [countName_maskExtensions]
    omega

/-- Witness for C10: the earliest-occurrence removal and the `min` count at a
concrete duplicate-name input. -/
theorem mask_min_semantics_witness :
    maskOneExtension "XR_EXT_beta" ([recA] ++ recB :: [recB2]) = [recA] ++ [recB2] :=
  (mask_min_semantics [] [] "").1 "XR_EXT_beta" [recA] [recB2] recB
    (by decide) (by decide)

/-- C1 counterexample: with a duplicated name in the chained list, the code
removes only the first matching record, so the produced count differs from
the stable set-difference by name even though both chained calls succeed. -/
theorem enum_filter_stable_setdiff_counterexample :
    xrSucceeded (honestNext [recB, recB2] none 0 none).1 = true
    ∧ xrSucceeded (honestNext [recB, recB2] none 2
        (some (List.replicate 2 blankExtensionProperties))).1 = true
    ∧ (xrEnumerateInstanceExtensionProperties (honestNext [recB, recB2])
        ["XR_EXT_beta"] none 0 none).propertyCountOutput = 1
    ∧ (specSetDifferenceByName ["XR_EXT_beta"] [recB, recB2]).length = 0 := by
  decide

/-- C1 (amended): when the chained list has pairwise-distinct names, the
filtered output the entry point produces (count and copied records) is the
stable set-difference by name of the chained list. -/
theorem enum_filter_stable_setdiff (next : ChainedEnum) (mask : List String)
    (cap : Nat) (props : Option (List XrExtensionProperties))
    (r1 : Int) (cnt1 : Nat) (b1 : Option (List XrExtensionProperties))
    (r2 : Int) (cnt2 : Nat) (arr : List XrExtensionProperties)
    (h1 : next none 0 none = (r1, cnt1, b1))
    (hs1 : xrSucceeded r1 = true)
    (h2 : next none cnt1 (some (List.replicate cnt1 blankExtensionProperties))
            = (r2, cnt2, some arr))
    (hs2 : xrSucceeded r2 = true)
    (hnd : (arr.map XrExtensionProperties.extensionName).Nodup) :
    (xrEnumerateInstanceExtensionProperties next mask none cap props).propertyCountOutput
        = (specSetDifferenceByName mask arr).length
    ∧ (xrEnumerateInstanceExtensionProperties next mask none cap props).properties
        = props.map (fun old => writeBuffer old (specSetDifferenceByName mask arr)) := by
  have he := enum_unqualified_eval next mask cap props r1 cnt1 b1 r2 cnt2 arr h1 hs1 h2 hs2
  rw [maskExtensions_eq_filter_of_nodup mask arr hnd] at he
  rw [he]
  exact ⟨rfl, rfl⟩

/-- Witness for C1 (amended) at a concrete chained list with distinct names. -/
theorem enum_filter_stable_setdiff_witness :
    (xrEnumerateInstanceExtensionProperties (honestNext [recA, recB])
        ["XR_EXT_beta"] none 0 none).propertyCountOutput
      = (specSetDifferenceByName ["XR_EXT_beta"] [recA, recB]).length :=
  (enum_filter_stable_setdiff (honestNext [recA, recB]) ["XR_EXT_beta"] 0 none
    XR_SUCCESS 2 none XR_SUCCESS 2 [recA, recB]
    (by decide) (by decide) (by decide) (by decide) (by decide)).1

/-- C2 counterexample: with capacity 0 but a non-null output buffer, the
entry point does copy the filtered records into the caller's buffer (both
chained calls succeeding), contradicting "copies nothing". -/
theorem enum_discovery_counterexample :
    xrSucceeded (honestNext [recA] none 0 none).1 = true
    ∧ xrSucceeded (honestNext [recA] none 1
        (some (List.replicate 1 blankExtensionProperties))).1 = true
    ∧ (xrEnumerateInstanceExtensionProperties (honestNext [recA]) [] none 0
        (some [recC])).properties ≠ some [recC] := by
  decide

/-- C2 (amended): a capacity-0 call that reaches two successful chained calls
returns the chained success code (never the buffer-too-small error), reports
the filtered count, never writes through a null output buffer, and — when a
non-null buffer is supplied — still copies the filtered records into it. -/
theorem enum_discovery_invariant (next : ChainedEnum) (mask : List String)
    (props : Option (List XrExtensionProperties))
    (r1 : Int) (cnt1 : Nat) (b1 : Option (List XrExtensionProperties))
    (r2 : Int) (cnt2 : Nat) (arr : List XrExtensionProperties)
    (h1 : next none 0 none = (r1, cnt1, b1))
    (hs1 : xrSucceeded r1 = true)
    (h2 : next none cnt1 (some (List.replicate cnt1 blankExtensionProperties))
            = (r2, cnt2, some arr))
    (hs2 : xrSucceeded r2 = true) :
    (xrEnumerateInstanceExtensionProperties next mask none 0 props).result = r2
    ∧ xrSucceeded (xrEnumerateInstanceExtensionProperties next mask none 0 props).result = true
    ∧ (xrEnumerateInstanceExtensionProperties next mask none 0 props).result
        ≠ XR_ERROR_SIZE_INSUFFICIENT
    ∧ (xrEnumerateInstanceExtensionProperties next mask none 0 props).propertyCountOutput
        = (maskExtensions mask arr).length
    ∧ (props = none →
        (xrEnumerateInstanceExtensionProperties next mask none 0 props).properties = none)
    ∧ (∀ old, props = some old →
        (xrEnumerateInstanceExtensionProperties next mask none 0 props).properties
          = some (writeBuffer old (maskExtensions mask arr))) := by
  have he := enum_unqualified_eval next mask 0 props r1 cnt1 b1 r2 cnt2 arr h1 hs1 h2 hs2
  rw [he]
  dsimp only
  have hres :
      (if (0 : Nat) ≠ 0 ∧ 0 < (maskExtensions mask arr).length then
          XR_ERROR_SIZE_INSUFFICIENT else r2) = r2 := by
    simp
  rw [hres]
  refine ⟨rfl, hs2, ?_, rfl, ?_, ?_⟩
  · intro hc
    rw [hc] at hs2
    simp [xrSucceeded, XR_ERROR_SIZE_INSUFFICIENT] at hs2
  · intro hp; rw [hp]; rfl
  · intro old hp; rw [hp]; rfl

/-- Witness for C2 (amended) at a concrete chained list and non-null buffer. -/
theorem enum_discovery_invariant_witness :
    (xrEnumerateInstanceExtensionProperties (honestNext [recA]) [] none 0
        (some [recC])).propertyCountOutput = (maskExtensions [] [recA]).length :=
  (enum_discovery_invariant (honestNext [recA]) [] (some [recC])
    XR_SUCCESS 1 none XR_SUCCESS 1 [recA]
    (by decide) (by decide) (by decide) (by decide)).2.2.2.1

/-- C3: a non-zero capacity strictly below the filtered count yields the
buffer-too-small error while the count output still holds the true filtered
count. -/
theorem enum_size_insufficient (next : ChainedEnum) (mask : List String)
    (cap : Nat) (props : Option (List XrExtensionProperties))
    (r1 : Int) (cnt1 : Nat) (b1 : Option (List XrExtensionProperties))
    (r2 : Int) (cnt2 : Nat) (arr : List XrExtensionProperties)
    (h1 : next none 0 none = (r1, cnt1, b1))
    (hs1 : xrSucceeded r1 = true)
    (h2 : next none cnt1 (some (List.replicate cnt1 blankExtensionProperties))
            = (r2, cnt2, some arr))
    (hs2 : xrSucceeded r2 = true)
    (hcap : cap ≠ 0)
    (hlt : cap < (maskExtensions mask arr).length) :
    (xrEnumerateInstanceExtensionProperties next mask none cap props).result
        = XR_ERROR_SIZE_INSUFFICIENT
    ∧ (xrEnumerateInstanceExtensionProperties next mask none cap props).propertyCountOutput
        = (maskExtensions mask arr).length := by
  have he := enum_unqualified_eval next mask cap props r1 cnt1 b1 r2 cnt2 arr h1 hs1 h2 hs2
  rw [he]
  exact ⟨by simp [hcap, hlt], rfl⟩

/-- Witness for C3: capacity 1 against a filtered count of 2. -/
theorem enum_size_insufficient_witness :
    (xrEnumerateInstanceExtensionProperties (honestNext [recA, recB]) [] none 1
        none).result = XR_ERROR_SIZE_INSUFFICIENT :=
  (enum_size_insufficient (honestNext [recA, recB]) [] 1 none
    XR_SUCCESS 2 none XR_SUCCESS 2 [recA, recB]
    (by decide) (by decide) (by decide) (by decide) (by decide) (by decide)).1

/-- C4: a non-null qualifier is forwarded verbatim to the chained target with
the caller's original capacity and buffer; result code, count output and
buffer content come back unchanged, and the suppressed set plays no role. -/
theorem enum_qualified_passthrough (next : ChainedEnum)
    (mask mask' : List String) (l : String) (cap : Nat)
    (props : Option (List XrExtensionProperties)) :
    xrEnumerateInstanceExtensionProperties next mask (some l) cap props
      = { result := (next (some l) cap props).1
          propertyCountOutput := (next (some l) cap props).2.1
          properties := (next (some l) cap props).2.2 }
    ∧ xrEnumerateInstanceExtensionProperties next mask (some l) cap props
      = xrEnumerateInstanceExtensionProperties next mask' (some l) cap props := by
  rcases h : next (some l) cap props with ⟨r, cnt, buf⟩
  constructor
  · simp [xrEnumerateInstanceExtensionProperties, h]
  · simp [xrEnumerateInstanceExtensionProperties, h]

/-- C5: while the chained module handle is unset the negotiation entry point
fails immediately with the file-access error, touching neither the request
record nor the captured resolver, whatever the chained state holds; and a
missing configuration file leaves the handle unset with an empty suppressed
set. -/
theorem negotiate_unloaded_fail_fast (st : WrapperState)
    (next_gipa : Option FnPtr) (loaderInfo : XrNegotiateLoaderInfo)
    (req : XrNegotiateRuntimeRequest)
    (h : st.chainedRuntimeModule = none) :
    xrNegotiateLoaderRuntimeInterface st next_gipa loaderInfo req
      = some (XR_ERROR_FILE_ACCESS_ERROR, req, next_gipa)
    ∧ ∀ (env : SystemEnv) (dllHome : String),
        (initializeWrapper env dllHome none).chainedRuntimeModule = none
        ∧ (initializeWrapper env dllHome none).extensionsToMask = [] := by
  constructor
  · simp [xrNegotiateLoaderRuntimeInterface, h]
  · intro env dllHome
    exact ⟨rfl, rfl⟩

/-- Witness for C5: the state produced from a missing configuration file. -/
theorem negotiate_unloaded_fail_fast_witness :
    xrNegotiateLoaderRuntimeInterface (initializeWrapper envSymbolMissing "C:/xr" none)
        none 0 reqSample
      = some (XR_ERROR_FILE_ACCESS_ERROR, reqSample, none) :=
  (negotiate_unloaded_fail_fast (initializeWrapper envSymbolMissing "C:/xr" none)
    none 0 reqSample rfl).1

/-- C6 (code bug): when the chained module loads but its negotiation symbol is
missing, the handle is left set with a null negotiation pointer, so the later
negotiation call dereferences a null function pointer (the `none` outcome)
instead of being gated into the fail-fast unavailable state. -/
theorem chainload_symbol_missing_bug :
    (initializeWrapper envSymbolMissing "C:/xr"
        (some ["runtime=real"])).chainedRuntimeModule = some 1
    ∧ (initializeWrapper envSymbolMissing "C:/xr"
        (some ["runtime=real"])).next_xrNegotiateLoaderRuntimeInterface = none
    ∧ xrNegotiateLoaderRuntimeInterface
        (initializeWrapper envSymbolMissing "C:/xr" (some ["runtime=real"]))
        none 0 reqSample = none := by
  exact ⟨rfl, rfl, rfl⟩

/-- C7: with the chained module loaded, a successful chained negotiation has
its written resolver captured and the response field overwritten with the
shim's resolver before the chained result is returned; a failed chained
negotiation is propagated unchanged with no substitution. -/
theorem negotiate_intercept (st : WrapperState) (m : Nat) (f : NegotiateFn)
    (next_gipa : Option FnPtr) (loaderInfo : XrNegotiateLoaderInfo)
    (req : XrNegotiateRuntimeRequest)
    (hm : st.chainedRuntimeModule = some m)
    (hf : st.next_xrNegotiateLoaderRuntimeInterface = some f) :
    (xrSucceeded (f loaderInfo req).1 = true →
        xrNegotiateLoaderRuntimeInterface st next_gipa loaderInfo req
          = some ((f loaderInfo req).1,
              { (f loaderInfo req).2 with
                  getInstanceProcAddr := some FnPtr.shim_xrGetInstanceProcAddr },
              (f loaderInfo req).2.getInstanceProcAddr))
    ∧ (xrSucceeded (f loaderInfo req).1 = false →
        xrNegotiateLoaderRuntimeInterface st next_gipa loaderInfo req
          = some ((f loaderInfo req).1, (f loaderInfo req).2, next_gipa)) := by
  rcases hfr : f loaderInfo req with ⟨result, req'⟩
  constructor
  · intro hs
    simp only at hs
    simp [xrNegotiateLoaderRuntimeInterface, hm, hf, hfr, hs]
  · intro hs
    simp only at hs
    simp [xrNegotiateLoaderRuntimeInterface, hm, hf, hfr, hs]

/-- Witness for C7: a concrete successful chained negotiation. -/
theorem negotiate_intercept_witness :
    xrNegotiateLoaderRuntimeInterface stLoadedOk none 0 reqSample
      = some (XR_SUCCESS,
          { runtimeInterfaceVersion := 1, runtimeApiVersion := 0,
            getInstanceProcAddr := some FnPtr.shim_xrGetInstanceProcAddr },
          some (FnPtr.chainedPtr 7)) :=
  (negotiate_intercept stLoadedOk 1 negotiateOk none 0 reqSample rfl rfl).1 rfl

/-- C8: the resolver interceptor forwards first; a chained failure is returned
untouched, a success on the targeted name captures the chained pointer,
substitutes the shim's replacement and returns success, and every other name
passes through unmodified. -/
theorem gipa_intercept (next_gipa : ResolverFn) (next_enum : Option FnPtr)
    (inst : XrInstance) (name : String) (slot : Option FnPtr)
    (r : Int) (slotAfter : Option FnPtr)
    (hn : next_gipa inst name slot = (r, slotAfter)) :
    (xrSucceeded r = false →
        xrGetInstanceProcAddr next_gipa next_enum inst name slot
          = (r, slotAfter, next_enum))
    ∧ (xrSucceeded r = true → name = "xrEnumerateInstanceExtensionProperties" →
        xrGetInstanceProcAddr next_gipa next_enum inst name slot
          = (XR_SUCCESS, some FnPtr.shim_xrEnumerateInstanceExtensionProperties,
             slotAfter))
    ∧ (xrSucceeded r = true → name ≠ "xrEnumerateInstanceExtensionProperties" →
        xrGetInstanceProcAddr next_gipa next_enum inst name slot
          = (r, slotAfter, next_enum)) := by
  refine ⟨?_, ?_, ?_⟩
  · intro hs
    simp [xrGetInstanceProcAddr, hn, hs]
  · intro hs hname
    subst hname
    simp [xrGetInstanceProcAddr, hn, hs]
  · intro hs hname
    simp [xrGetInstanceProcAddr, hn, hs, hname]

/-- Witness for C8: resolving the targeted name through a succeeding chained
resolver. -/
theorem gipa_intercept_witness :
    xrGetInstanceProcAddr resolverOk none 5 "xrEnumerateInstanceExtensionProperties" none
      = (XR_SUCCESS, some FnPtr.shim_xrEnumerateInstanceExtensionProperties,
         some (FnPtr.chainedPtr 38)) :=
  ((gipa_intercept resolverOk none 5 "xrEnumerateInstanceExtensionProperties" none
      XR_SUCCESS (some (FnPtr.chainedPtr 38)) (by decide)).2.1) (by decide) rfl

/-- C9: every recognized `maskExtension` line appends exactly its value to the
suppressed set, in file order with no deduplication, and each unknown-key or
separator-less line contributes exactly its own log event while parsing
continues over the whole file. -/
theorem config_mask_lines (dllHome : String) (lines : List String) :
    (parseConfigLines dllHome lines).extensionsToMask
        = lines.filterMap maskExtensionValue
    ∧ (parseConfigLines dllHome lines).log = configLogEvents 0 lines := by
  constructor
  · rw [parseConfigLines, parseConfigFrom_extensionsToMask]
    simp [initialConfigState]
  · rw [parseConfigLines, parseConfigFrom_log]
    simp [initialConfigState]
